import Mathlib

/-!
Verification of the windowed feature-extraction pipeline shared between the
training script (model CatBoost.py, function extract_window_features) and the
inference API (api.py, function extract_features_window) of the stress-detection
repository.

The Python code is shallowly embedded as follows: float-valued signal samples
are modelled by rationals (exact arithmetic) wherever the code only adds,
subtracts, multiplies, divides and compares them, and by reals wherever square
roots or spectral estimates appear; IEEE special values (NaN, +-inf), which the
validity gate of the training path inspects, are modelled by an explicit
four-case type `Flt`; numpy/scipy/pandas library calls are embedded by the
formulas those libraries document and compute.

Definitions come first, then the theorems.
-/

/-! ### Rational-valued array helpers -/

/-- Python `arr[a:b]` on a rational-valued numpy array (0 <= a <= b). -/
def sliceL (l : List ℚ) (a b : ℕ) : List ℚ := (l.drop a).take (b - a)

/-- numpy `np.diff`: successive differences `out[i] = a[i+1] - a[i]`. -/
def diffQ (l : List ℚ) : List ℚ := List.zipWith (fun a b => b - a) l l.tail

/-- numpy `np.diff` on an integer index array, cast to rationals. -/
def diffN (l : List ℕ) : List ℚ := diffQ (l.map (fun (i : ℕ) => (i : ℚ)))

/-- numpy `np.mean` over an exact rational array (sum divided by length;
division by zero yields 0 for the empty array, a case the code never hits). -/
def meanQ (l : List ℚ) : ℚ := l.sum / l.length

/-- Population variance of a rational list (mean of squared deviations),
used to model the `np.std(arr) == 0` test of the validity gate: the standard
deviation is zero exactly when this variance is zero. -/
def varQ (l : List ℚ) : ℚ := (l.map (fun x => (x - meanQ l) ^ 2)).sum / l.length

/-- numpy `np.cumsum`: running sums. -/
def cumsumQ (l : List ℚ) : List ℚ := (l.scanl (fun acc x => acc + x) 0).tail

/-- numpy `np.linspace a b num`: `num` evenly spaced points from `a` to `b`
inclusive; a single copy of `a` when `num <= 1`. -/
def linspaceQ (a b : ℚ) (num : ℕ) : List ℚ :=
  if num ≤ 1 then List.replicate num a
  else (List.range num).map (fun (k : ℕ) => a + (b - a) * (k : ℚ) / ((num : ℚ) - 1))

/-- One query of numpy `np.interp` against sample points `(xp i, fp i)`:
clamped to the first value below the range and to the last value above it,
piecewise linear in between (`xp` sorted increasing, as produced by cumsum). -/
def interpPts (x : ℚ) : List (ℚ × ℚ) → ℚ
  | [] => 0
  | [(_, f1)] => f1
  | (x1, f1) :: (x2, f2) :: rest =>
      if x ≤ x1 then f1
      else if x ≤ x2 then f1 + (f2 - f1) * (x - x1) / (x2 - x1)
      else interpPts x ((x2, f2) :: rest)

/-- numpy `np.interp(xq, xp, fp)`. -/
def npInterp (xq xp fp : List ℚ) : List ℚ := xq.map (fun x => interpPts x (xp.zip fp))

/-! ### scipy.signal.find_peaks (distance-constrained local maxima)

Port of scipy's `_local_maxima_1d` (local maxima with plateau midpoints;
indices 1 .. n-2 are candidates) followed by `_select_by_peak_distance`
(peaks are visited in order of decreasing height, ties broken towards the
rightmost peak as numpy's stable argsort produces, and every not-yet-removed
visited peak removes all other peaks strictly closer than `distance`). -/

/-- Length of the leading run of elements equal to `v`. -/
def countEq (v : ℚ) : List ℚ → ℕ
  | x :: xs => if x = v then countEq v xs + 1 else 0
  | [] => 0

/-- The scan of `_local_maxima_1d`. Arguments: remaining fuel (the scan
advances the index at least once per step, so `n` steps suffice), current
candidate index `idx`, value `prev = x[idx-1]`, and the list of samples from
index `idx` on. A candidate `x` with `prev < x` opens a plateau; equal values
are consumed while strictly before the last index; if the value after the
plateau is strictly smaller, the midpoint `(left+right)/2` is a peak and the
scan resumes one past the plateau end. -/
def lmAux : ℕ → ℕ → ℚ → List ℚ → List ℕ
  | 0, _, _, _ => []
  | _, _, _, [] => []
  | _ + 1, _, _, [_] => []
  | fuel + 1, idx, prev, x :: rest =>
      if prev < x then
        let t := countEq x (rest.take (rest.length - 1))
        match rest.drop t with
        | [] => []
        | y :: rest2 =>
            if y < x then
              (2 * idx + t) / 2 :: lmAux fuel (idx + t + 2) y rest2
            else lmAux fuel (idx + 1) x rest
      else lmAux fuel (idx + 1) x rest

/-- All plateau-midpoint local maxima of a sample list. -/
def localMaxima (x : List ℚ) : List ℕ :=
  match x with
  | [] => []
  | x0 :: rest => lmAux (x0 :: rest).length 1 x0 rest

/-- Insertion into a list sorted by `le`. -/
def insSort (le : ℕ → ℕ → Bool) (a : ℕ) : List ℕ → List ℕ
  | [] => [a]
  | b :: bs => if le a b then a :: b :: bs else b :: insSort le a bs

/-- Sort by `le` (insertion sort; the keys used below are strictly totally
ordered, so stability is irrelevant). -/
def sortIdx (le : ℕ → ℕ → Bool) (l : List ℕ) : List ℕ := l.foldr (insSort le) []

/-- `|a - b|` on naturals. -/
def absDiff (a b : ℕ) : ℕ := (a - b) + (b - a)

/-- Remove (set to false) every peak other than `j` strictly closer than
`dist` to peak `j`. -/
def killNear (pos : List ℕ) (dist j : ℕ) (keep : List Bool) : List Bool :=
  List.zipWith
    (fun k b => if k ≠ j ∧ absDiff (pos.getD k 0) (pos.getD j 0) < dist then false else b)
    (List.range keep.length) keep

/-- Visit peaks in the given priority order; a peak that is still kept
removes its too-close neighbours. -/
def selectLoop (pos : List ℕ) (dist : ℕ) : List ℕ → List Bool → List Bool
  | [], keep => keep
  | j :: rest, keep =>
      if keep.getD j false then selectLoop pos dist rest (killNear pos dist j keep)
      else selectLoop pos dist rest keep

/-- scipy `signal.find_peaks(x, distance=dist)[0]`. -/
def findPeaks (x : List ℚ) (dist : ℕ) : List ℕ :=
  let mids := localMaxima x
  let le : ℕ → ℕ → Bool := fun a b =>
    decide (x.getD (mids.getD a 0) 0 < x.getD (mids.getD b 0) 0) ||
      (decide (x.getD (mids.getD a 0) 0 = x.getD (mids.getD b 0) 0) && decide (a ≤ b))
  let order := (sortIdx le (List.range mids.length)).reverse
  let keep := selectLoop mids dist order (List.replicate mids.length true)
  ((List.range mids.length).filter (fun k => keep.getD k false)).map (fun k => mids.getD k 0)

/-- Inter-beat intervals in seconds: `np.diff(peaks) / DEFAULT_BVP_SR` with
the BVP sample rate fixed at 64 Hz in both paths. -/
def ibiOf (peaks : List ℕ) : List ℚ := (diffN peaks).map (fun d => d / 64)

/-! ### The window slicer of the training loop -/

/-- Python `range(0, stop, step)` for `step > 0` contains exactly the
multiples of `step` that are nonnegative and `< stop`, in increasing order.
The training loop `for start in range(0, n - window_samples + 1, step_samples)`
therefore enumerates exactly the multiples of `step_samples` with
`start + window_samples <= n`. -/
def windowStarts (n wnd step : ℕ) : List ℕ :=
  (List.range ((n : ℤ) - wnd + 1).toNat).filter (fun s => s % step == 0)

/-- Window boundaries `(start, end)` with `end = start + window_samples`,
as computed by the training loop body. -/
def windowBounds (n wnd step : ℕ) : List (ℕ × ℕ) :=
  (windowStarts n wnd step).map (fun s => (s, s + wnd))

/-! ### IEEE specials, the validity gate and label alignment -/

/-- A float value as stored in a numpy signal array: NaN, +inf, -inf, or a
finite value (modelled exactly by a rational). -/
inductive Flt where
  | nan : Flt
  | inf : Flt
  | ninf : Flt
  | num : ℚ → Flt
deriving DecidableEq

/-- numpy `np.isnan` on one element. -/
def Flt.isNan : Flt → Bool
  | .nan => true
  | _ => false

/-- numpy `np.isinf` on one element (true for either infinity). -/
def Flt.isInf : Flt → Bool
  | .inf => true
  | .ninf => true
  | _ => false

/-- Whether the element is an ordinary finite float. -/
def Flt.isFinite : Flt → Bool
  | .num _ => true
  | _ => false

/-- The rational value of a finite element (junk 0 on specials; only used
under an all-finite guard). -/
def Flt.valQ : Flt → ℚ
  | .num q => q
  | _ => 0

/-- The test `np.std(arr) == 0` of the training validity gate. On an array
containing a NaN or an infinity, `np.std` returns NaN (inf - inf or NaN
propagation), and on an empty array it returns NaN, so the comparison with 0
is false; on an all-finite nonempty array the standard deviation is zero
exactly when the population variance of the values is zero. -/
def stdZeroF (arr : List Flt) : Bool :=
  !arr.isEmpty && arr.all Flt.isFinite && (varQ (arr.map Flt.valQ) == 0)

/-- The validity gate `valid(arr)` of extract_window_features:
`not (np.isnan(arr).any() or np.isinf(arr).any() or np.std(arr) == 0)`. -/
def validF (arr : List Flt) : Bool :=
  !(arr.any Flt.isNan || arr.any Flt.isInf || stdZeroF arr)

/-- Python `arr[a:b]` on an array of float elements. -/
def sliceF (l : List Flt) (a b : ℕ) : List Flt := (l.drop a).take (b - a)

/-- Pointwise combination of three equal-rate lists. -/
def zip3With (f : Flt → Flt → Flt → Flt) : List Flt → List Flt → List Flt → List Flt
  | a :: as, b :: bs, c :: cs => f a b c :: zip3With f as bs cs
  | _, _, _ => []

/-- One sample of `ax**2 + ay**2 + az**2` under IEEE arithmetic: NaN if any
component is NaN, +inf if any component is infinite (squares are nonnegative,
so no inf - inf cancellation can occur), else the exact rational value. -/
def fltSq3 (a b c : Flt) : Flt :=
  if a.isNan || b.isNan || c.isNan then .nan
  else if a.isInf || b.isInf || c.isInf then .inf
  else .num (a.valQ ^ 2 + b.valQ ^ 2 + c.valQ ^ 2)

/-- The ACC validity gate `valid(mag)` with `mag = sqrt(ax**2+ay**2+az**2)`.
Since `sqrt` maps NaN to NaN, +inf to +inf and is injective on nonnegative
finite values, `mag` has a NaN / an infinity / zero standard deviation exactly
when the list of squared magnitudes does, so the gate is evaluated on the
squared magnitudes. -/
def validACCF (xs ys zs : List Flt) : Bool :=
  validF (zip3With fltSq3 xs ys zs)

/-- pandas `Series(l).mode().iloc[0]`: among the values of maximal
multiplicity, `mode()` returns them sorted ascending, so `.iloc[0]` is the
smallest such value (0 on an empty list, never consulted there). -/
def modeMin (l : List ℤ) : ℤ :=
  let mc := (l.map (fun x => l.count x)).foldr max 0
  match l.filter (fun x => l.count x == mc) with
  | [] => 0
  | x :: xs => xs.foldl min x

/-- The label-alignment block of extract_window_features: with
`scale = len(chest_labels) / n`, `c_start = int(start*scale)`,
`c_end = min(int(end*scale), chest_len)`, the label slice
`chest_labels[c_start:c_end]`; when `len(lbl) > 0`, its pandas mode; the row
gets a label only when the mode is in ALLOWED_LABELS = [0, 1]. Python `int()`
on these nonnegative floats is the floor. -/
def labelFor (chest : List ℤ) (n s e : ℕ) : Option ℤ :=
  let scale : ℚ := (chest.length : ℚ) / (n : ℚ)
  let cs : ℕ := (⌊(s : ℚ) * scale⌋).toNat
  let ce : ℕ := min (⌊(e : ℚ) * scale⌋).toNat chest.length
  let lbl := (chest.drop cs).take (ce - cs)
  if 0 < lbl.length then
    (if modeMin lbl = 0 ∨ modeMin lbl = 1 then some (modeMin lbl) else none)
  else none

/-- Modelled from the spec: the label indices of window `[start, end)` are
`[floor(start*scale), min(floor(end*scale), L))` with `scale = L / N`. -/
def specLabelSlice (chest : List ℤ) (n s e : ℕ) : List ℤ :=
  (chest.drop (⌊(s : ℚ) * ((chest.length : ℚ) / (n : ℚ))⌋).toNat).take
    (min (⌊(e : ℚ) * ((chest.length : ℚ) / (n : ℚ))⌋).toNat chest.length -
      (⌊(s : ℚ) * ((chest.length : ℚ) / (n : ℚ))⌋).toNat)

/-- The six wrist channels of one subject, as float arrays (training path). -/
structure SignalsF where
  EDA : List Flt
  TEMP : List Flt
  ACCx : List Flt
  ACCy : List Flt
  ACCz : List Flt
  BVP : List Flt

/-- `n = min(len(v) for v in signals.values())` over the six channels. -/
def nOf (S : SignalsF) : ℕ :=
  min (min (min (min (min S.EDA.length S.TEMP.length) S.ACCx.length) S.ACCy.length)
    S.ACCz.length) S.BVP.length

/-- Whether the training loop appends a row for the window starting at `s`:
all four channel gates pass (otherwise `continue` skips the window) and the
label block put a label into the row (otherwise the row is not appended).
The BVP slice is taken at doubled indices (`bvp_start = start*2`,
`bvp_end = end*2`). -/
def windowKept (S : SignalsF) (chest : List ℤ) (wnd s : ℕ) : Bool :=
  validF (sliceF S.EDA s (s + wnd)) &&
  validF (sliceF S.TEMP s (s + wnd)) &&
  validACCF (sliceF S.ACCx s (s + wnd)) (sliceF S.ACCy s (s + wnd))
    (sliceF S.ACCz s (s + wnd)) &&
  validF (sliceF S.BVP (2 * s) (2 * (s + wnd))) &&
  (labelFor chest (nOf S) s (s + wnd)).isSome

/-- The window starts whose rows appear in the output list `features` of
extract_window_features. -/
def keptStarts (S : SignalsF) (chest : List ℤ) (wnd step : ℕ) : List ℕ :=
  (windowStarts (nOf S) wnd step).filter (windowKept S chest wnd)

/-! ### Real-valued statistics (numpy / scipy / pandas conventions) -/

/-- Casts a rational sample list to the reals. -/
def qr (l : List ℚ) : List ℝ := l.map (fun (q : ℚ) => (q : ℝ))

/-- numpy `np.mean` on real-valued data. -/
noncomputable def meanR (l : List ℝ) : ℝ := l.sum / l.length

/-- Sum of centred k-th powers, the building block pandas and scipy share. -/
noncomputable def cmomSum (l : List ℝ) (k : ℕ) : ℝ :=
  (l.map (fun x => (x - meanR l) ^ k)).sum

/-- numpy `np.std` (default ddof=0): square root of the mean of squared
deviations, i.e. the population standard deviation. -/
noncomputable def npStd (l : List ℝ) : ℝ :=
  Real.sqrt (meanR (l.map (fun x => (x - meanR l) ^ 2)))

/-- pandas `Series.std()` (default ddof=1): square root of the sum of squared
deviations normalized by N - 1. -/
noncomputable def pdStd (l : List ℝ) : ℝ :=
  Real.sqrt (cmomSum l 2 / ((l.length : ℝ) - 1))

/-- scipy `stats.skew` with its default bias=True: the biased estimator
`g1 = m3 / m2**1.5` with `m_k` the mean centred moments (`m2**1.5` written
as `sqrt(m2)^3`, equal for the nonnegative `m2`). -/
noncomputable def scipySkew (l : List ℝ) : ℝ :=
  (cmomSum l 3 / l.length) / (Real.sqrt (cmomSum l 2 / l.length)) ^ 3

/-- pandas `Series.skew()`: the bias-corrected Fisher-Pearson estimator, as
pandas nanskew computes it: `count * (count-1)**0.5 / (count-2) *
(m3 / m2**1.5)` with `m2`, `m3` the sums of centred powers. -/
noncomputable def pdSkew (l : List ℝ) : ℝ :=
  (l.length : ℝ) * Real.sqrt ((l.length : ℝ) - 1) / ((l.length : ℝ) - 2) *
    (cmomSum l 3 / (Real.sqrt (cmomSum l 2)) ^ 3)

/-- scipy `stats.kurtosis` with its defaults fisher=True, bias=True: the
biased excess kurtosis `g2 = m4/m2^2 - 3`. -/
noncomputable def scipyKurt (l : List ℝ) : ℝ :=
  (cmomSum l 4 / l.length) / (cmomSum l 2 / l.length) ^ 2 - 3

/-- pandas `Series.kurt()`: the bias-corrected excess kurtosis, as pandas
nankurt computes it: `n(n+1)(n-1) m4 / ((n-2)(n-3) m2^2) -
3 (n-1)^2 / ((n-2)(n-3))` with `m2`, `m4` the sums of centred powers. -/
noncomputable def pdKurt (l : List ℝ) : ℝ :=
  (l.length : ℝ) * ((l.length : ℝ) + 1) * ((l.length : ℝ) - 1) * cmomSum l 4 /
      (((l.length : ℝ) - 2) * ((l.length : ℝ) - 3) * (cmomSum l 2) ^ 2) -
    3 * ((l.length : ℝ) - 1) ^ 2 / (((l.length : ℝ) - 2) * ((l.length : ℝ) - 3))

/-- Modelled from the spec: "std (population, denominator n)". -/
noncomputable def specPopStd (l : List ℝ) : ℝ :=
  Real.sqrt ((l.map (fun x => (x - meanR l) ^ 2)).sum / l.length)

/-- numpy `np.min` (reduction; 0 on the empty array, never consulted). -/
noncomputable def minR (l : List ℝ) : ℝ :=
  match l with
  | [] => 0
  | x :: xs => xs.foldl min x

/-- numpy `np.max`. -/
noncomputable def maxR (l : List ℝ) : ℝ :=
  match l with
  | [] => 0
  | x :: xs => xs.foldl max x

open Classical in
/-- Insertion into an ascending real list. -/
noncomputable def insR (a : ℝ) : List ℝ → List ℝ
  | [] => [a]
  | b :: bs => if a ≤ b then a :: b :: bs else b :: insR a bs

/-- Ascending sort of a real list. -/
noncomputable def sortR (l : List ℝ) : List ℝ := l.foldr insR []

/-- numpy `np.median`: middle element of the sorted data for odd length,
average of the two middle elements for even length. -/
noncomputable def medianR (l : List ℝ) : ℝ :=
  let s := sortR l
  if l.length % 2 = 1 then s.getD (l.length / 2) 0
  else (s.getD (l.length / 2 - 1) 0 + s.getD (l.length / 2) 0) / 2

/-! ### scipy.signal.welch and bandpower

`welch(arr, fs=fs, nperseg=len(arr))` analyses the single full-length segment:
the segment is detrended by subtracting its mean, multiplied by the periodic
Hann window, transformed by the real FFT, and scaled by
`1 / (fs * sum(window^2))`; the one-sided density doubles every bin except DC
and (for even n) Nyquist. Frequencies are `k*fs/n` for `k = 0 .. n//2`. -/

/-- The k-th DFT coefficient of a real list. -/
noncomputable def dftC (y : List ℝ) (k : ℕ) : ℂ :=
  ((List.range y.length).map (fun j =>
    ((y.getD j 0 : ℝ) : ℂ) *
      Complex.exp (-(((2 * Real.pi * j * k / y.length : ℝ) : ℂ)) * Complex.I))).sum

/-- The periodic Hann window (scipy returns the all-ones window at length 1). -/
noncomputable def hannW (n j : ℕ) : ℝ :=
  if n = 1 then 1 else 1 / 2 * (1 - Real.cos (2 * Real.pi * j / n))

/-- The one-sided power spectral density computed by
`signal.welch(arr, fs=fs, nperseg=len(arr))`. -/
noncomputable def welchPSD (arr : List ℝ) (fs : ℝ) : List ℝ :=
  let n := arr.length
  let detr := arr.map (fun x => x - meanR arr)
  let wy := (List.range n).map (fun j => hannW n j * detr.getD j 0)
  let scale := 1 / (fs * ((List.range n).map (fun j => hannW n j ^ 2)).sum)
  (List.range (n / 2 + 1)).map (fun k =>
    scale * (if k = 0 ∨ (n % 2 = 0 ∧ k = n / 2) then 1 else 2) * Complex.normSq (dftC wy k))

/-- The frequency bins returned by welch: `k * fs / n` for `k = 0 .. n//2`. -/
noncomputable def rfftfreq (n : ℕ) (fs : ℝ) : List ℝ :=
  (List.range (n / 2 + 1)).map (fun (k : ℕ) => (k : ℝ) * fs / (n : ℝ))

/-- `scipy.integrate.trapezoid(y, x)` over a list of `(x, y)` pairs. -/
noncomputable def trapzP : List (ℝ × ℝ) → ℝ
  | (x1, y1) :: (x2, y2) :: rest => (x2 - x1) * (y1 + y2) / 2 + trapzP ((x2, y2) :: rest)
  | _ => 0

open Classical in
/-- `bandpower(arr, fs, low, high)` as defined identically in both source
files: the Welch PSD restricted to bins with `low <= f <= high`, integrated
by the trapezoidal rule, and exactly 0.0 when no bin is selected. -/
noncomputable def bandpower (arr : List ℝ) (fs low high : ℝ) : ℝ :=
  let pairs := ((rfftfreq arr.length fs).zip (welchPSD arr fs)).filter
    (fun p => decide (low ≤ p.1 ∧ p.1 ≤ high))
  if pairs.isEmpty then 0 else trapzP pairs

/-! ### HRV derivation (both paths) -/

/-- The seven HRV outputs. -/
structure HRV7 where
  hr : ℝ
  sdnn : ℝ
  rmssd : ℝ
  pnn50 : ℝ
  lf : ℝ
  hf : ℝ
  lfhf : ℝ

/-- The HRV block of extract_window_features (training path): peak detection
with `distance = int(DEFAULT_BVP_SR * 0.3) = 19`; with fewer than 2 peaks all
seven outputs are 0; otherwise IBIs, HR, SDNN (np.std), RMSSD, pNN50, and the
frequency-domain LF/HF from the IBI series resampled on a uniform grid and
analysed at a nominal 4 Hz (the enclosing try never fails on these inputs:
with at least one IBI every step below is total). -/
noncomputable def trainHRV (bvp : List ℚ) : HRV7 :=
  let peaks := findPeaks bvp 19
  if 1 < peaks.length then
    let ibi := ibiOf peaks
    let rr := diffQ ibi
    let times := cumsumQ ibi
    let itimes := linspaceQ (times.headD 0) (times.getLastD 0) times.length
    let interp := npInterp itimes times ibi
    let lf := bandpower (qr interp) 4 0.04 0.15
    let hf := bandpower (qr interp) 4 0.15 0.4
    { hr := ((60 / meanQ ibi : ℚ) : ℝ)
      sdnn := npStd (qr ibi)
      rmssd := if 0 < rr.length
        then Real.sqrt (((rr.map (fun d => d ^ 2)).sum / rr.length : ℚ)) else 0
      pnn50 := ((if 0 < rr.length
        then ((rr.countP (fun d => decide ((0.05 : ℚ) < |d|)) : ℚ) / (rr.length : ℚ))
        else 0 : ℚ) : ℝ)
      lf := lf
      hf := hf
      lfhf := if hf > 0 then lf / hf else 0 }
  else ⟨0, 0, 0, 0, 0, 0, 0⟩

/-- The HRV block of extract_features_window (inference path): identical
except that the peak distance constant is 20 and the LF/HF guard is
truthiness (`if row["HRV_HF"]`) rather than positivity. -/
noncomputable def apiHRV (bvp : List ℚ) : HRV7 :=
  let peaks := findPeaks bvp 20
  if 1 < peaks.length then
    let ibi := ibiOf peaks
    let rr := diffQ ibi
    let times := cumsumQ ibi
    let itimes := linspaceQ (times.headD 0) (times.getLastD 0) times.length
    let interp := npInterp itimes times ibi
    let lf := bandpower (qr interp) 4 0.04 0.15
    let hf := bandpower (qr interp) 4 0.15 0.4
    { hr := ((60 / meanQ ibi : ℚ) : ℝ)
      sdnn := npStd (qr ibi)
      rmssd := if 0 < rr.length
        then Real.sqrt (((rr.map (fun d => d ^ 2)).sum / rr.length : ℚ)) else 0
      pnn50 := ((if 0 < rr.length
        then ((rr.countP (fun d => decide ((0.05 : ℚ) < |d|)) : ℚ) / (rr.length : ℚ))
        else 0 : ℚ) : ℝ)
      lf := lf
      hf := hf
      lfhf := if hf ≠ 0 then lf / hf else 0 }
  else ⟨0, 0, 0, 0, 0, 0, 0⟩

/-- The name/value pairs in which both paths emit the HRV block. -/
noncomputable def hrvPairs (h : HRV7) : List (String × ℝ) :=
  [("HR_mean", h.hr), ("HRV_SDNN", h.sdnn), ("HRV_RMSSD", h.rmssd), ("HRV_pNN50", h.pnn50),
   ("HRV_LF", h.lf), ("HRV_HF", h.hf), ("HRV_LFHF", h.lfhf)]

/-! ### Per-window feature rows of both paths -/

/-- The six wrist channels as exact rational arrays (feature math layer). -/
structure Signals where
  EDA : List ℚ
  TEMP : List ℚ
  ACCx : List ℚ
  ACCy : List ℚ
  ACCz : List ℚ
  BVP : List ℚ

/-- `stats_dict(arr)` of the training path: the seven pandas Series summary
statistics, emitted in dict-literal order with the channel prefix. -/
noncomputable def stats_dict (pre : String) (arr : List ℝ) : List (String × ℝ) :=
  [(pre ++ "_mean", meanR arr), (pre ++ "_std", pdStd arr), (pre ++ "_min", minR arr),
   (pre ++ "_max", maxR arr), (pre ++ "_median", medianR arr), (pre ++ "_skew", pdSkew arr),
   (pre ++ "_kurt", pdKurt arr)]

/-- The seven numpy/scipy summary statistics of the inference path, same
names and order. -/
noncomputable def apiStats (pre : String) (arr : List ℝ) : List (String × ℝ) :=
  [(pre ++ "_mean", meanR arr), (pre ++ "_std", npStd arr), (pre ++ "_min", minR arr),
   (pre ++ "_max", maxR arr), (pre ++ "_median", medianR arr), (pre ++ "_skew", scipySkew arr),
   (pre ++ "_kurt", scipyKurt arr)]

/-- Per-sample acceleration magnitude `sqrt(ax**2 + ay**2 + az**2)`. -/
noncomputable def magR : List ℚ → List ℚ → List ℚ → List ℝ
  | a :: as, b :: bs, c :: cs =>
      Real.sqrt (((a : ℝ)) ^ 2 + ((b : ℝ)) ^ 2 + ((c : ℝ)) ^ 2) :: magR as bs cs
  | _, _, _ => []

/-- The EDA feature block of the training path: pandas stats, first
difference mean/std (np.std), peaks at `distance = int(sr*0.5)`, band powers
at the wrist rate, LF/HF ratio guarded by `> 0`. -/
noncomputable def trainEDA (sr : ℕ) (eda : List ℚ) : List (String × ℝ) :=
  stats_dict "EDA" (qr eda) ++
  [("EDA_diff_mean", ((meanQ (diffQ eda) : ℚ) : ℝ)),
   ("EDA_diff_std", npStd (qr (diffQ eda)))] ++
  [("EDA_peak_count", ((findPeaks eda (sr / 2)).length : ℝ)),
   ("EDA_peak_mean_amp", if 0 < (findPeaks eda (sr / 2)).length
      then ((meanQ ((findPeaks eda (sr / 2)).map (fun i => eda.getD i 0)) : ℚ) : ℝ) else 0)] ++
  [("EDA_LF", bandpower (qr eda) sr 0.01 0.1),
   ("EDA_HF", bandpower (qr eda) sr 0.1 0.25),
   ("EDA_LFHF", if bandpower (qr eda) sr 0.1 0.25 > 0
      then bandpower (qr eda) sr 0.01 0.1 / bandpower (qr eda) sr 0.1 0.25 else 0)]

/-- The TEMP feature block of the training path. -/
noncomputable def trainTEMP (temp : List ℚ) : List (String × ℝ) :=
  stats_dict "TEMP" (qr temp) ++
  [("TEMP_slope", (((temp.getLastD 0 - temp.headD 0) / (temp.length : ℚ) : ℚ) : ℝ))]

/-- The ACC feature block of the training path: pandas stats of the magnitude
and the mean energy `sum(mag**2)/len(mag)`. -/
noncomputable def trainACC (xs ys zs : List ℚ) : List (String × ℝ) :=
  stats_dict "ACC_mag" (magR xs ys zs) ++
  [("ACC_energy", ((magR xs ys zs).map (fun m => m ^ 2)).sum / ((magR xs ys zs).length : ℝ))]

/-- The BVP feature block of the training path: pandas stats of the raw pulse
slice plus the HRV block. -/
noncomputable def trainBVP (bvp : List ℚ) : List (String × ℝ) :=
  stats_dict "BVP" (qr bvp) ++ hrvPairs (trainHRV bvp)

/-- The full feature row extract_window_features computes for the window
`[start, end)` (label excluded), with the BVP slice at doubled indices. -/
noncomputable def trainWindowRow (S : Signals) (sr start e : ℕ) : List (String × ℝ) :=
  trainEDA sr (sliceL S.EDA start e) ++
  trainTEMP (sliceL S.TEMP start e) ++
  trainACC (sliceL S.ACCx start e) (sliceL S.ACCy start e) (sliceL S.ACCz start e) ++
  trainBVP (sliceL S.BVP (2 * start) (2 * e))

/-- The EDA feature block of the inference path: numpy/scipy stats, peaks at
the fixed `distance=16`, band powers at the fixed 32 Hz, LF/HF ratio guarded
by truthiness. -/
noncomputable def apiEDA (eda : List ℚ) : List (String × ℝ) :=
  apiStats "EDA" (qr eda) ++
  [("EDA_diff_mean", ((meanQ (diffQ eda) : ℚ) : ℝ)),
   ("EDA_diff_std", npStd (qr (diffQ eda)))] ++
  [("EDA_peak_count", ((findPeaks eda 16).length : ℝ)),
   ("EDA_peak_mean_amp", if 0 < (findPeaks eda 16).length
      then ((meanQ ((findPeaks eda 16).map (fun i => eda.getD i 0)) : ℚ) : ℝ) else 0)] ++
  [("EDA_LF", bandpower (qr eda) 32 0.01 0.1),
   ("EDA_HF", bandpower (qr eda) 32 0.1 0.25),
   ("EDA_LFHF", if bandpower (qr eda) 32 0.1 0.25 ≠ 0
      then bandpower (qr eda) 32 0.01 0.1 / bandpower (qr eda) 32 0.1 0.25 else 0)]

/-- The TEMP feature block of the inference path. -/
noncomputable def apiTEMP (temp : List ℚ) : List (String × ℝ) :=
  apiStats "TEMP" (qr temp) ++
  [("TEMP_slope", (((temp.getLastD 0 - temp.headD 0) / (temp.length : ℚ) : ℚ) : ℝ))]

/-- The ACC feature block of the inference path. -/
noncomputable def apiACC (xs ys zs : List ℚ) : List (String × ℝ) :=
  apiStats "ACC_mag" (magR xs ys zs) ++
  [("ACC_energy", ((magR xs ys zs).map (fun m => m ^ 2)).sum / ((magR xs ys zs).length : ℝ))]

/-- The BVP feature block of the inference path. -/
noncomputable def apiBVP (bvp : List ℚ) : List (String × ℝ) :=
  apiStats "BVP" (qr bvp) ++ hrvPairs (apiHRV bvp)

/-- `extract_features_window(signals)` of api.py: the single-window feature
row over the full channels, in insertion order. -/
noncomputable def extract_features_window (S : Signals) : List (String × ℝ) :=
  apiEDA S.EDA ++ apiTEMP S.TEMP ++ apiACC S.ACCx S.ACCy S.ACCz ++ apiBVP S.BVP

/-- The literal `order` list of api.py (the training feature order the
DataFrame is reindexed to before prediction). -/
def api_order : List String :=
  ["index",
   "EDA_mean", "EDA_std", "EDA_min", "EDA_max", "EDA_median", "EDA_skew", "EDA_kurt",
   "EDA_diff_mean", "EDA_diff_std",
   "EDA_peak_count", "EDA_peak_mean_amp",
   "EDA_LF", "EDA_HF", "EDA_LFHF",
   "TEMP_mean", "TEMP_std", "TEMP_min", "TEMP_max", "TEMP_median",
   "TEMP_skew", "TEMP_kurt", "TEMP_slope",
   "ACC_mag_mean", "ACC_mag_std", "ACC_mag_min", "ACC_mag_max",
   "ACC_mag_median", "ACC_mag_skew", "ACC_mag_kurt", "ACC_energy",
   "BVP_mean", "BVP_std", "BVP_min", "BVP_max", "BVP_median",
   "BVP_skew", "BVP_kurt",
   "HR_mean", "HRV_SDNN", "HRV_RMSSD", "HRV_pNN50",
   "HRV_LF", "HRV_HF", "HRV_LFHF"]

/-- Modelled from the spec: the order-significant schema enumerated in the
spec, from `index` through `HRV_LFHF` (the optional trailing `label` is
written separately where needed). -/
def specSchema : List String :=
  ["index",
   "EDA_mean", "EDA_std", "EDA_min", "EDA_max", "EDA_median", "EDA_skew", "EDA_kurt",
   "EDA_diff_mean", "EDA_diff_std",
   "EDA_peak_count", "EDA_peak_mean_amp",
   "EDA_LF", "EDA_HF", "EDA_LFHF",
   "TEMP_mean", "TEMP_std", "TEMP_min", "TEMP_max", "TEMP_median",
   "TEMP_skew", "TEMP_kurt", "TEMP_slope",
   "ACC_mag_mean", "ACC_mag_std", "ACC_mag_min", "ACC_mag_max",
   "ACC_mag_median", "ACC_mag_skew", "ACC_mag_kurt", "ACC_energy",
   "BVP_mean", "BVP_std", "BVP_min", "BVP_max", "BVP_median",
   "BVP_skew", "BVP_kurt",
   "HR_mean", "HRV_SDNN", "HRV_RMSSD", "HRV_pNN50",
   "HRV_LF", "HRV_HF", "HRV_LFHF"]

/-- Name-based feature lookup in an emitted row (0 if absent). -/
noncomputable def lookupR (row : List (String × ℝ)) (k : String) : ℝ :=
  ((row.find? (fun p => p.1 == k)).map Prod.snd).getD 0

/-! ### The /predict endpoint of api.py -/

/-- The live scalar readings of the request body. -/
structure SensorInput where
  BVP : ℚ
  EDA : ℚ
  TEMP : ℚ
  ACCx : ℚ
  ACCy : ℚ
  ACCz : ℚ

/-- The six `np.random.randn` noise streams the endpoint draws from when it
synthesizes a window (one value per sample index). -/
structure Noise where
  nBVP : ℕ → ℚ
  nEDA : ℕ → ℚ
  nTEMP : ℕ → ℚ
  nAx : ℕ → ℚ
  nAy : ℕ → ℚ
  nAz : ℕ → ℚ

/-- What the endpoint does: either return early from the physiological
override with a fixed prediction and probability (no window synthesis, no
feature extraction, no classifier call), or hand the feature row of the
synthesized window to the classifier. -/
inductive PredictOutcome where
  | early : String → ℚ → PredictOutcome
  | classify : List (String × ℝ) → PredictOutcome

/-- The physiological override condition of predict_stress. -/
def overrideCond (i : SensorInput) : Bool :=
  decide (36 ≤ i.TEMP ∧ i.TEMP ≤ 37.5 ∧ i.EDA ≤ 3 ∧
    |i.ACCx| < 50 ∧ |i.ACCy| < 50 ∧ |i.ACCz| < 50)

/-- The synthetic 6-second window of predict_stress: 384 BVP samples and 192
samples per wrist channel, each the scalar reading plus scaled noise. -/
def synthWindow (z : Noise) (i : SensorInput) : Signals :=
  { BVP := (List.range 384).map (fun j => i.BVP + 0.01 * z.nBVP j)
    EDA := (List.range 192).map (fun j => i.EDA + 0.02 * z.nEDA j)
    TEMP := (List.range 192).map (fun j => i.TEMP + 0.005 * z.nTEMP j)
    ACCx := (List.range 192).map (fun j => i.ACCx + 2 * z.nAx j)
    ACCy := (List.range 192).map (fun j => i.ACCy + 2 * z.nAy j)
    ACCz := (List.range 192).map (fun j => i.ACCz + 2 * z.nAz j) }

/-- The ordered vector handed to the classifier: the row with `index`
inserted at position 0, reindexed by the training order. -/
noncomputable def apiEmittedVector (S : Signals) : List (String × ℝ) :=
  api_order.map (fun k => (k, lookupR (("index", (0 : ℝ)) :: extract_features_window S) k))

/-- `predict_stress` of api.py: the override branch answers
("NOT STRESSED", 0.0) immediately; otherwise the synthesized window is
featurized and classified. -/
noncomputable def predict_stress (z : Noise) (i : SensorInput) : PredictOutcome :=
  if overrideCond i then .early "NOT STRESSED" 0
  else .classify (apiEmittedVector (synthWindow z i))

/-! ### Concrete sample data for the closed witnesses -/

/-- Concrete signals used by the witness of C4. -/
def sigC4 : SignalsF :=
  { EDA := [.num 1, .num 1, .num 1], TEMP := [.num 1, .num 2, .num 4],
    ACCx := [.num 1, .num 2, .num 3], ACCy := [.num 0, .num 1, .num 2],
    ACCz := [.num 0, .num 0, .num 1], BVP := [.num 0, .num 1, .num 0, .num 2, .num 0, .num 1] }

/-- Concrete signals used by the witness of C7: the EDA window [0,2) is flat
(zero variance) while the TEMP, ACC and BVP windows are all valid. -/
def sigC7 : SignalsF :=
  { EDA := [.num 1, .num 1, .num 1], TEMP := [.num 1, .num 2, .num 4],
    ACCx := [.num 1, .num 2, .num 3], ACCy := [.num 0, .num 1, .num 2],
    ACCz := [.num 0, .num 0, .num 1], BVP := [.num 0, .num 1, .num 0, .num 2, .num 0, .num 1] }

/-- A strictly increasing BVP slice: no interior local maximum, so no peaks. -/
def bvpNoPeaks : List ℚ := [0, 1, 2]

/-- A BVP slice with exactly two detected peaks 20 samples apart: the filter
removes only peaks strictly closer than the distance constant, and 20 is not
strictly closer than either 19 or 20, so both peaks survive in both paths. -/
def bvpTwoPeaks : List ℚ :=
  [0, 0, 1, 0, 0, 0, 0, 0, 0, 0, 0, 0, 0, 0, 0, 0, 0, 0, 0, 0, 0, 0, 1, 0, 0]

/-- The identical window handed to both paths in the divergence theorem of
C1: every channel slice of window [0,3) equals the corresponding full
channel, and the BVP slice [0,6) is the full BVP channel. -/
def sigC1 : Signals :=
  { EDA := [0, 1, 2], TEMP := [0, 1, 2], ACCx := [0, 1, 2], ACCy := [0, 1, 2],
    ACCz := [0, 1, 2], BVP := [0, 1, 0, 1, 0, 1] }

/-! ## Theorems -/

/-- The tie-breaking fact behind `validACCF`: on nonnegative reals the square
root is injective, so the magnitudes are all equal iff the squared magnitudes
are. -/
lemma sqrt_eq_sqrt_iff_of_nonneg (a b : ℝ) (ha : 0 ≤ a) (hb : 0 ≤ b) :
    Real.sqrt a = Real.sqrt b ↔ a = b :=
  Real.sqrt_inj ha hb

lemma count_multiples (step : ℕ) (hs : 0 < step) (N : ℕ) :
    ((List.range N).filter (fun s => s % step == 0)).length = (N + step - 1) / step := by
  induction N with
  | zero =>
      simp [Nat.div_eq_of_lt (by omega : step - 1 < step)]
  | succ N ih =>
      have hsplit : ((List.range (N + 1)).filter (fun s => s % step == 0)).length
          = ((List.range N).filter (fun s => s % step == 0)).length
            + (if N % step = 0 then 1 else 0) := by
        rw [List.range_succ, List.filter_append, List.length_append]
        by_cases hdvd : N % step = 0 <;> simp [List.filter_cons, hdvd]
      rw [hsplit, ih]
      by_cases hdvd : N % step = 0
      · obtain ⟨q, hq⟩ := Nat.dvd_of_mod_eq_zero hdvd
        have hA : (N + 1 + step - 1) / step = q + 1 := by
          have e1 : N + 1 + step - 1 = step * q + step := by omega
          rw [e1, Nat.mul_add_div hs, Nat.div_self hs]
        have hB : (N + step - 1) / step = q := by
          have e2 : N + step - 1 = step * q + (step - 1) := by omega
          rw [e2, Nat.mul_add_div hs, Nat.div_eq_of_lt (by omega : step - 1 < step)]
          omega
        rw [if_pos hdvd, hA, hB]
      · have hr1 : 1 ≤ N % step := Nat.one_le_iff_ne_zero.mpr hdvd
        have hrlt : N % step < step := Nat.mod_lt _ hs
        have hrepr := Nat.div_add_mod N step
        have hA : (N + 1 + step - 1) / step = N / step + 1 := by
          have e1 : N + 1 + step - 1 = step * (N / step) + (step + N % step - 1 + 1) := by
            omega
          rw [e1, Nat.mul_add_div hs]
          congr 1
          have e2 : step + N % step - 1 + 1 = step * 1 + N % step := by omega
          rw [e2, Nat.mul_add_div hs, Nat.div_eq_of_lt hrlt]
        have hB : (N + step - 1) / step = N / step + 1 := by
          have e1 : N + step - 1 = step * (N / step) + (step * 1 + (N % step - 1)) := by omega
          rw [e1, Nat.mul_add_div hs, Nat.mul_add_div hs,
            Nat.div_eq_of_lt (by omega : N % step - 1 < step)]
        rw [if_neg hdvd, hA, hB]

/-- C8: the window enumeration yields exactly the boundaries
`(start, start + window_samples)` for `start` a multiple of `step_samples`
while `start + window_samples <= n`; it is empty when `n < window_samples`,
and for `window_samples <= n` it has `(n - window_samples) / step_samples + 1`
elements. -/
theorem window_enumeration_spec (n wnd step : ℕ) (hw : 0 < wnd) (hs : 0 < step) :
    (∀ s e : ℕ, (s, e) ∈ windowBounds n wnd step ↔
        (e = s + wnd ∧ (∃ k, s = k * step) ∧ s + wnd ≤ n)) ∧
    (n < wnd → windowBounds n wnd step = []) ∧
    (wnd ≤ n → (windowBounds n wnd step).length = (n - wnd) / step + 1) := by
  refine ⟨?_, ?_, ?_⟩
  · intro s e
    constructor
    · intro hmem
      obtain ⟨a, hafilter, hae⟩ := List.mem_map.mp hmem
      obtain ⟨harange, hamod⟩ := List.mem_filter.mp hafilter
      have ha : a < ((n : ℤ) - wnd + 1).toNat := List.mem_range.mp harange
      have hmod : a % step = 0 := by simpa using hamod
      rw [Prod.ext_iff] at hae
      obtain ⟨h1, h2⟩ := hae
      simp only at h1 h2
      refine ⟨by omega, ⟨a / step, ?_⟩, by omega⟩
      rw [← h1]
      exact (Nat.div_mul_cancel (Nat.dvd_of_mod_eq_zero hmod)).symm
    · rintro ⟨rfl, ⟨k, rfl⟩, hle⟩
      refine List.mem_map.mpr ⟨k * step, List.mem_filter.mpr ⟨List.mem_range.mpr ?_, ?_⟩, rfl⟩
      · omega
      · simp [Nat.mul_mod_left]
  · intro hlt
    have h0 : ((n : ℤ) - wnd + 1).toNat = 0 := by omega
    simp [windowBounds, windowStarts, h0]
  · intro hle
    have hN : ((n : ℤ) - wnd + 1).toNat = n - wnd + 1 := by omega
    rw [windowBounds, List.length_map, windowStarts, hN, count_multiples step hs]
    have he : n - wnd + 1 + step - 1 = (n - wnd) + step := by omega
    rw [he, Nat.add_div_right _ hs]

/-- Witness for C8 at the concrete configuration n = 10, window = 4, step = 3:
the enumeration contains the boundary (6, 10) and has (10 - 4) / 3 + 1 = 3
elements. -/
theorem window_enumeration_spec_witness :
    0 < 4 ∧ 0 < 3 ∧ (6, 10) ∈ windowBounds 10 4 3 ∧
      (windowBounds 10 4 3).length = (10 - 4) / 3 + 1 :=
  ⟨by decide, by decide,
    ((window_enumeration_spec 10 4 3 (by decide) (by decide)).1 6 10).mpr
      ⟨rfl, ⟨2, rfl⟩, by decide⟩,
    (window_enumeration_spec 10 4 3 (by decide) (by decide)).2.2 (by decide)⟩

/-- C4: a window row carries label `m` exactly when the label slice
`[floor(start*scale), min(floor(end*scale), L))` is nonempty, `m` is its
statistical mode, and `m` is in the allowed set {0,1}; and a window whose
label resolution fails is excluded from the output entirely. -/
theorem label_alignment_spec :
    (∀ (chest : List ℤ) (n s e : ℕ) (m : ℤ),
        labelFor chest n s e = some m ↔
          (specLabelSlice chest n s e ≠ [] ∧ m = modeMin (specLabelSlice chest n s e) ∧
            (m = 0 ∨ m = 1))) ∧
    (∀ (S : SignalsF) (chest : List ℤ) (wnd step s : ℕ),
        labelFor chest (nOf S) s (s + wnd) = none → s ∉ keptStarts S chest wnd step) := by
  constructor
  · intro chest n s e m
    have hdef : labelFor chest n s e =
        (if 0 < (specLabelSlice chest n s e).length then
          (if modeMin (specLabelSlice chest n s e) = 0 ∨
              modeMin (specLabelSlice chest n s e) = 1
            then some (modeMin (specLabelSlice chest n s e)) else none)
         else none) := rfl
    rw [hdef]
    generalize specLabelSlice chest n s e = L
    split_ifs with hpos hallow
    · constructor
      · intro h
        injection h with h
        exact ⟨List.length_pos.mp hpos, h.symm, h ▸ hallow⟩
      · rintro ⟨_, rfl, _⟩
        rfl
    · constructor
      · intro h
        exact absurd h (by simp)
      · rintro ⟨_, rfl, hor⟩
        exact absurd hor hallow
    · constructor
      · intro h
        exact absurd h (by simp)
      · rintro ⟨hne, _, _⟩
        exact absurd (List.eq_nil_of_length_eq_zero (by omega)) hne
  · intro S chest wnd step s hnone hmem
    have hk := (List.mem_filter.mp hmem).2
    simp only [windowKept, Bool.and_eq_true] at hk
    rw [hnone] at hk
    simp at hk

/-- Witness for C4: for the label stream [1,1,0,0,1] over a signal of the same
length, window [0,5) resolves to the mode 1, and a stream of out-of-range
labels [7,7,7] makes window [0,2) drop out of the output. -/
theorem label_alignment_spec_witness :
    (specLabelSlice [1, 1, 0, 0, 1] 5 0 5 ≠ [] ∧
      (1 : ℤ) = modeMin (specLabelSlice [1, 1, 0, 0, 1] 5 0 5) ∧
      ((1 : ℤ) = 0 ∨ (1 : ℤ) = 1)) ∧
    0 ∉ keptStarts sigC4 [7, 7, 7] 2 1 :=
  ⟨(label_alignment_spec.1 [1, 1, 0, 0, 1] 5 0 5 1).mp (by
      (norm_num [labelFor, modeMin]) <;> decide),
    label_alignment_spec.2 sigC4 [7, 7, 7] 2 1 0 (by
      (norm_num [labelFor, modeMin, nOf, sigC4]) <;> decide)⟩

/-- C7: failure of any one of the four channel validity gates on a window
excludes that window's row from the training output entirely. -/
theorem invalid_channel_drops_window (S : SignalsF) (chest : List ℤ) (wnd step s : ℕ)
    (h : validF (sliceF S.EDA s (s + wnd)) = false ∨
         validF (sliceF S.TEMP s (s + wnd)) = false ∨
         validACCF (sliceF S.ACCx s (s + wnd)) (sliceF S.ACCy s (s + wnd))
           (sliceF S.ACCz s (s + wnd)) = false ∨
         validF (sliceF S.BVP (2 * s) (2 * (s + wnd))) = false) :
    s ∉ keptStarts S chest wnd step := by
  intro hmem
  have hk := (List.mem_filter.mp hmem).2
  simp only [windowKept, Bool.and_eq_true] at hk
  rcases h with h | h | h | h <;> rw [h] at hk <;> simp at hk

/-- Witness for C7: with a flat EDA window and valid TEMP/ACC/BVP windows,
window start 0 is dropped from the output. -/
theorem invalid_channel_drops_window_witness :
    validF (sliceF sigC7.TEMP 0 2) = true ∧
    validACCF (sliceF sigC7.ACCx 0 2) (sliceF sigC7.ACCy 0 2) (sliceF sigC7.ACCz 0 2) = true ∧
    validF (sliceF sigC7.BVP 0 4) = true ∧
    validF (sliceF sigC7.EDA 0 2) = false ∧
    0 ∉ keptStarts sigC7 [0, 0, 0] 2 1 :=
  ⟨by norm_num [sigC7, sliceF, validF, stdZeroF, varQ, meanQ, Flt.isNan, Flt.isInf,
      Flt.isFinite, Flt.valQ],
    by norm_num [sigC7, sliceF, validACCF, validF, stdZeroF, varQ, meanQ, zip3With, fltSq3,
      Flt.isNan, Flt.isInf, Flt.isFinite, Flt.valQ],
    by norm_num [sigC7, sliceF, validF, stdZeroF, varQ, meanQ, Flt.isNan, Flt.isInf,
      Flt.isFinite, Flt.valQ],
    by norm_num [sigC7, sliceF, validF, stdZeroF, varQ, meanQ, Flt.isNan, Flt.isInf,
      Flt.isFinite, Flt.valQ],
    invalid_channel_drops_window sigC7 [0, 0, 0] 2 1 0 (Or.inl (by
      norm_num [sigC7, sliceF, validF, stdZeroF, varQ, meanQ, Flt.isNan, Flt.isInf,
        Flt.isFinite, Flt.valQ]))⟩

lemma diffQ_length (l : List ℚ) : (diffQ l).length = l.length - 1 := by
  rw [diffQ, List.length_zipWith, List.length_tail]
  omega

lemma ibiOf_length (p : List ℕ) : (ibiOf p).length = p.length - 1 := by
  rw [ibiOf, List.length_map, diffN, diffQ_length]
  simp

/-- C5: with fewer than 2 detected peaks in the BVP slice, all seven HRV
outputs are exactly 0.0, in the training path (distance 19) and in the
inference path (distance 20). -/
theorem hrv_zero_below_two_peaks (bvp : List ℚ) :
    ((findPeaks bvp 19).length < 2 → trainHRV bvp = ⟨0, 0, 0, 0, 0, 0, 0⟩) ∧
    ((findPeaks bvp 20).length < 2 → apiHRV bvp = ⟨0, 0, 0, 0, 0, 0, 0⟩) := by
  constructor
  · intro h
    simp only [trainHRV]
    rw [if_neg (by omega)]
  · intro h
    simp only [apiHRV]
    rw [if_neg (by omega)]

/-- Witness for C5: a strictly increasing BVP slice yields no peaks at all,
and both paths then emit the all-zero HRV block. -/
theorem hrv_zero_below_two_peaks_witness :
    (findPeaks bvpNoPeaks 19).length < 2 ∧ (findPeaks bvpNoPeaks 20).length < 2 ∧
    trainHRV bvpNoPeaks = ⟨0, 0, 0, 0, 0, 0, 0⟩ ∧
    apiHRV bvpNoPeaks = ⟨0, 0, 0, 0, 0, 0, 0⟩ :=
  ⟨by decide, by decide,
    (hrv_zero_below_two_peaks bvpNoPeaks).1 (by decide),
    (hrv_zero_below_two_peaks bvpNoPeaks).2 (by decide)⟩

/-- C9: pNN50 never divides by zero: the number of successive IBI differences
is the number of peaks minus 2, pNN50 is 0 when exactly 2 peaks were detected
(empty rr_diff) and the fraction of differences exceeding 0.05 s otherwise -
in both paths. -/
theorem pnn50_no_division_error (bvp : List ℚ) :
    ((diffQ (ibiOf (findPeaks bvp 19))).length = (findPeaks bvp 19).length - 2) ∧
    ((findPeaks bvp 19).length = 2 → (trainHRV bvp).pnn50 = 0) ∧
    (2 < (findPeaks bvp 19).length →
      (trainHRV bvp).pnn50 =
        (((diffQ (ibiOf (findPeaks bvp 19))).countP
            (fun d => decide ((0.05 : ℚ) < |d|)) : ℚ) /
          (((findPeaks bvp 19).length - 2 : ℕ) : ℚ) : ℚ)) ∧
    ((diffQ (ibiOf (findPeaks bvp 20))).length = (findPeaks bvp 20).length - 2) ∧
    ((findPeaks bvp 20).length = 2 → (apiHRV bvp).pnn50 = 0) ∧
    (2 < (findPeaks bvp 20).length →
      (apiHRV bvp).pnn50 =
        (((diffQ (ibiOf (findPeaks bvp 20))).countP
            (fun d => decide ((0.05 : ℚ) < |d|)) : ℚ) /
          (((findPeaks bvp 20).length - 2 : ℕ) : ℚ) : ℚ)) := by
  have hl19 : (diffQ (ibiOf (findPeaks bvp 19))).length = (findPeaks bvp 19).length - 2 := by
    rw [diffQ_length, ibiOf_length]
    omega
  have hl20 : (diffQ (ibiOf (findPeaks bvp 20))).length = (findPeaks bvp 20).length - 2 := by
    rw [diffQ_length, ibiOf_length]
    omega
  refine ⟨hl19, ?_, ?_, hl20, ?_, ?_⟩
  · intro h2
    simp only [trainHRV]
    rw [if_pos (by omega)]
    simp only
    rw [if_neg (by omega)]
    norm_num
  · intro h3
    simp only [trainHRV]
    rw [if_pos (by omega)]
    simp only
    rw [if_pos (by omega), hl19]
  · intro h2
    simp only [apiHRV]
    rw [if_pos (by omega)]
    simp only
    rw [if_neg (by omega)]
    norm_num
  · intro h3
    simp only [apiHRV]
    rw [if_pos (by omega)]
    simp only
    rw [if_pos (by omega), hl20]

/-- Witness for C9: a BVP slice with exactly two detected peaks (20 samples
apart, surviving both distance constants) yields pNN50 = 0 in both paths. -/
theorem pnn50_no_division_error_witness :
    (findPeaks bvpTwoPeaks 19).length = 2 ∧ (trainHRV bvpTwoPeaks).pnn50 = 0 ∧
    (findPeaks bvpTwoPeaks 20).length = 2 ∧ (apiHRV bvpTwoPeaks).pnn50 = 0 :=
  ⟨by decide, (pnn50_no_division_error bvpTwoPeaks).2.1 (by decide),
    by decide, (pnn50_no_division_error bvpTwoPeaks).2.2.2.2.1 (by decide)⟩

/-- C10: requests satisfying the physiological override (TEMP in [36, 37.5],
EDA <= 3, each |ACC| < 50) return early with prediction "NOT STRESSED" and
probability 0.0, for every BVP value and every noise draw - no window is
synthesized, no features are extracted and the classifier is not invoked. -/
theorem predict_override_branch (z : Noise) (bvp eda temp ax ay az : ℚ)
    (h1 : 36 ≤ temp) (h2 : temp ≤ 37.5) (h3 : eda ≤ 3)
    (h4 : |ax| < 50) (h5 : |ay| < 50) (h6 : |az| < 50) :
    predict_stress z ⟨bvp, eda, temp, ax, ay, az⟩ = .early "NOT STRESSED" 0 := by
  have hc : overrideCond ⟨bvp, eda, temp, ax, ay, az⟩ = true := by
    simp only [overrideCond, decide_eq_true_eq]
    exact ⟨h1, h2, h3, h4, h5, h6⟩
  simp only [predict_stress, hc, if_true]

/-- Witness for C10 at TEMP = 37, EDA = 1, ACC = (0,0,0), BVP = 1000: the
override fires regardless of the extreme BVP reading. -/
theorem predict_override_branch_witness :
    (36 : ℚ) ≤ 37 ∧ (37 : ℚ) ≤ 37.5 ∧ (1 : ℚ) ≤ 3 ∧
    |(0 : ℚ)| < 50 ∧ |(0 : ℚ)| < 50 ∧ |(0 : ℚ)| < 50 ∧
    predict_stress ⟨fun _ => 0, fun _ => 0, fun _ => 0, fun _ => 0, fun _ => 0, fun _ => 0⟩
      ⟨1000, 1, 37, 0, 0, 0⟩ = .early "NOT STRESSED" 0 :=
  ⟨by norm_num, by norm_num, by norm_num, by norm_num, by norm_num, by norm_num,
    predict_override_branch ⟨fun _ => 0, fun _ => 0, fun _ => 0, fun _ => 0, fun _ => 0,
        fun _ => 0⟩ 1000 1 37 0 0 0
      (by norm_num) (by norm_num) (by norm_num) (by norm_num) (by norm_num) (by norm_num)⟩

lemma cmomSum_two_nonneg (l : List ℝ) : 0 ≤ cmomSum l 2 := by
  apply List.sum_nonneg
  intro x hx
  obtain ⟨y, _, rfl⟩ := List.mem_map.mp hx
  positivity

lemma pdStd_example : pdStd [0, 1, 2] = 1 := by
  have hc : cmomSum [0, 1, 2] 2 = 2 := by norm_num [cmomSum, meanR]
  rw [pdStd, hc]
  norm_num [Real.sqrt_one]

lemma specPopStd_example_lt : specPopStd [0, 1, 2] < 1 := by
  have e : ((([0, 1, 2] : List ℝ).map (fun x => (x - meanR [0, 1, 2]) ^ 2)).sum /
      ((([0, 1, 2] : List ℝ).length : ℕ) : ℝ)) = 2 / 3 := by norm_num [meanR]
  rw [specPopStd, e]
  calc Real.sqrt (2 / 3) < Real.sqrt 1 := Real.sqrt_lt_sqrt (by norm_num) (by norm_num)
  _ = 1 := Real.sqrt_one

lemma npStd_example_lt : npStd [0, 1, 2] < 1 := by
  have e : meanR (([0, 1, 2] : List ℝ).map (fun x => (x - meanR [0, 1, 2]) ^ 2)) = 2 / 3 := by
    norm_num [meanR]
  rw [npStd, e]
  calc Real.sqrt (2 / 3) < Real.sqrt 1 := Real.sqrt_lt_sqrt (by norm_num) (by norm_num)
  _ = 1 := Real.sqrt_one

/-- C2 fails on the code: on the explicit input [0, 1, 2] the training path's
std (pandas, denominator n - 1) is 1, while the population standard deviation
the spec prescribes is sqrt(2/3). -/
theorem train_std_not_population : pdStd [0, 1, 2] ≠ specPopStd [0, 1, 2] := by
  intro h
  rw [pdStd_example] at h
  exact absurd h.symm (ne_of_lt specPopStd_example_lt)

/-- C2 amended: the inference path's std (numpy) is the population standard
deviation; the training path's std (pandas) is the sample standard deviation,
off from the population one by the factor sqrt(n/(n-1)); the training path's
skewness and excess kurtosis (pandas) are the bias-corrected versions of the
biased estimators the inference path uses (scipy defaults). -/
theorem stat_conventions_per_path :
    (∀ l : List ℝ, npStd l = specPopStd l) ∧
    (∀ l : List ℝ, 2 ≤ l.length →
      pdStd l = Real.sqrt ((l.length : ℝ) / ((l.length : ℝ) - 1)) * specPopStd l) ∧
    (∀ l : List ℝ, 3 ≤ l.length →
      pdSkew l = Real.sqrt ((l.length : ℝ) * ((l.length : ℝ) - 1)) / ((l.length : ℝ) - 2) *
        scipySkew l) ∧
    (∀ l : List ℝ, 4 ≤ l.length →
      pdKurt l = ((l.length : ℝ) - 1) / (((l.length : ℝ) - 2) * ((l.length : ℝ) - 3)) *
        (((l.length : ℝ) + 1) * scipyKurt l + 6)) := by
  refine ⟨?_, ?_, ?_, ?_⟩
  · intro l
    rw [npStd, specPopStd, meanR, List.length_map]
  · intro l hl
    have hn2 : (2 : ℝ) ≤ (l.length : ℝ) := by exact_mod_cast hl
    have hS : 0 ≤ cmomSum l 2 := cmomSum_two_nonneg l
    have hspec : specPopStd l = Real.sqrt (cmomSum l 2 / (l.length : ℝ)) := by
      rw [specPopStd, cmomSum]
    have hpos : (0 : ℝ) ≤ (l.length : ℝ) / ((l.length : ℝ) - 1) := by
      apply div_nonneg <;> linarith
    rw [pdStd, hspec, ← Real.sqrt_mul hpos]
    congr 1
    have h0 : (l.length : ℝ) ≠ 0 := by linarith
    have h1 : (l.length : ℝ) - 1 ≠ 0 := by intro h; nlinarith
    field_simp
    ring
  · intro l hl
    have hn3 : (3 : ℝ) ≤ (l.length : ℝ) := by exact_mod_cast hl
    have hS2 : 0 ≤ cmomSum l 2 := cmomSum_two_nonneg l
    have hn0 : (0 : ℝ) < (l.length : ℝ) := by linarith
    rw [pdSkew, scipySkew, Real.sqrt_div hS2, div_pow, div_div_eq_mul_div,
      Real.sqrt_mul (le_of_lt hn0)]
    have hs : Real.sqrt (l.length : ℝ) ^ 2 = (l.length : ℝ) := Real.sq_sqrt (le_of_lt hn0)
    have hs0 : Real.sqrt (l.length : ℝ) ≠ 0 := by positivity
    generalize hu : (Real.sqrt (cmomSum l 2)) ^ 3 = u
    generalize hv : cmomSum l 3 = S3
    generalize ht : Real.sqrt ((l.length : ℝ) - 1) = t
    generalize hsd : Real.sqrt (l.length : ℝ) = s at hs hs0
    rw [← hs]
    have e2 : S3 / s ^ 2 * s ^ 3 = S3 * s := by
      field_simp
      ring
    rw [e2]
    ring
  · intro l hl
    have hn4 : (4 : ℝ) ≤ (l.length : ℝ) := by exact_mod_cast hl
    have h0 : (l.length : ℝ) ≠ 0 := by intro h; nlinarith
    have h2 : (l.length : ℝ) - 2 ≠ 0 := by intro h; nlinarith
    have h3 : (l.length : ℝ) - 3 ≠ 0 := by intro h; nlinarith
    by_cases hS : cmomSum l 2 = 0
    · rw [pdKurt, scipyKurt, hS]
      rw [show (0 : ℝ) / (l.length : ℝ) = 0 from zero_div _]
      norm_num
      field_simp
      ring
    · rw [pdKurt, scipyKurt]
      field_simp
      ring

/-- Witness for C2 at the concrete input [0, 1, 2, 3] (length 4): all three
correction relations instantiate. -/
theorem stat_conventions_per_path_witness :
    (2 ≤ ([0, 1, 2, 3] : List ℝ).length ∧
      pdStd [0, 1, 2, 3] =
        Real.sqrt (((([0, 1, 2, 3] : List ℝ).length : ℝ)) /
            ((([0, 1, 2, 3] : List ℝ).length : ℝ) - 1)) * specPopStd [0, 1, 2, 3]) ∧
    (3 ≤ ([0, 1, 2, 3] : List ℝ).length ∧
      pdSkew [0, 1, 2, 3] =
        Real.sqrt (((([0, 1, 2, 3] : List ℝ).length : ℝ)) *
              ((([0, 1, 2, 3] : List ℝ).length : ℝ) - 1)) /
            ((([0, 1, 2, 3] : List ℝ).length : ℝ) - 2) * scipySkew [0, 1, 2, 3]) ∧
    (4 ≤ ([0, 1, 2, 3] : List ℝ).length ∧
      pdKurt [0, 1, 2, 3] =
        ((([0, 1, 2, 3] : List ℝ).length : ℝ) - 1) /
            (((([0, 1, 2, 3] : List ℝ).length : ℝ) - 2) *
              ((([0, 1, 2, 3] : List ℝ).length : ℝ) - 3)) *
          (((([0, 1, 2, 3] : List ℝ).length : ℝ) + 1) * scipyKurt [0, 1, 2, 3] + 6)) :=
  ⟨⟨by norm_num, stat_conventions_per_path.2.1 [0, 1, 2, 3] (by norm_num)⟩,
    ⟨by norm_num, stat_conventions_per_path.2.2.1 [0, 1, 2, 3] (by norm_num)⟩,
    ⟨by norm_num, stat_conventions_per_path.2.2.2 [0, 1, 2, 3] (by norm_num)⟩⟩

lemma welchPSD_mem_nonneg (arr : List ℝ) (fs : ℝ) (hfs : 0 ≤ fs) :
    ∀ p ∈ welchPSD arr fs, 0 ≤ p := by
  intro p hp
  simp only [welchPSD, List.mem_map] at hp
  obtain ⟨k, _, rfl⟩ := hp
  have hsum : (0 : ℝ) ≤
      ((List.range arr.length).map (fun j => hannW arr.length j ^ 2)).sum := by
    apply List.sum_nonneg
    intro x hx
    obtain ⟨j, _, rfl⟩ := List.mem_map.mp hx
    positivity
  have hscale : (0 : ℝ) ≤
      1 / (fs * ((List.range arr.length).map (fun j => hannW arr.length j ^ 2)).sum) :=
    one_div_nonneg.mpr (mul_nonneg hfs hsum)
  refine mul_nonneg (mul_nonneg hscale ?_) (Complex.normSq_nonneg _)
  split_ifs <;> norm_num

lemma rfftfreq_pairwise (n : ℕ) (fs : ℝ) (hfs : 0 ≤ fs) :
    (rfftfreq n fs).Pairwise (· ≤ ·) := by
  rw [rfftfreq]
  refine List.Pairwise.map _ ?_ (List.pairwise_lt_range _)
  intro a b hab
  rcases Nat.eq_zero_or_pos n with h0 | hpos
  · simp [h0]
  · have hn : (0 : ℝ) < (n : ℕ) := by exact_mod_cast hpos
    apply (div_le_div_right hn).mpr
    have : (a : ℝ) ≤ (b : ℝ) := by exact_mod_cast le_of_lt hab
    exact mul_le_mul_of_nonneg_right this hfs

lemma zip_fst_pairwise (l1 l2 : List ℝ) (h : l1.Pairwise (· ≤ ·)) :
    (l1.zip l2).Pairwise (fun p q => p.1 ≤ q.1) := by
  induction l1 generalizing l2 with
  | nil => simp
  | cons a as ih =>
      cases l2 with
      | nil => simp
      | cons b bs =>
          rw [List.zip_cons_cons]
          rw [List.pairwise_cons] at h ⊢
          refine ⟨?_, ih bs h.2⟩
          rintro ⟨x, y⟩ hxy
          exact h.1 x (List.of_mem_zip hxy).1

lemma trapzP_nonneg : ∀ l : List (ℝ × ℝ), l.Pairwise (fun p q => p.1 ≤ q.1) →
    (∀ p ∈ l, 0 ≤ p.2) → 0 ≤ trapzP l := by
  intro l
  induction l with
  | nil => intro _ _; exact le_refl 0
  | cons a t ih =>
      intro hp hv
      cases t with
      | nil => exact le_refl 0
      | cons b t2 =>
          have h1 : trapzP (a :: b :: t2) = (b.1 - a.1) * (a.2 + b.2) / 2 + trapzP (b :: t2) :=
            rfl
          rw [h1]
          have hab : a.1 ≤ b.1 := (List.pairwise_cons.mp hp).1 b (by simp)
          have ha2 : 0 ≤ a.2 := hv a (by simp)
          have hb2 : 0 ≤ b.2 := hv b (by simp)
          have hrest : 0 ≤ trapzP (b :: t2) :=
            ih (List.pairwise_cons.mp hp).2 (fun p hp2 => hv p (List.mem_cons_of_mem a hp2))
          have hterm : 0 ≤ (b.1 - a.1) * (a.2 + b.2) / 2 := by
            apply div_nonneg _ (by norm_num)
            apply mul_nonneg <;> linarith
          linarith

/-- C6: bandpower is nonnegative (for the nonnegative sample rates the
program uses), and is exactly 0.0 when no PSD frequency bin lies in
[low, high]. -/
theorem bandpower_nonneg_and_empty_band (arr : List ℝ) (fs low high : ℝ) :
    (0 ≤ fs → 0 ≤ bandpower arr fs low high) ∧
    ((∀ f ∈ rfftfreq arr.length fs, ¬(low ≤ f ∧ f ≤ high)) →
      bandpower arr fs low high = 0) := by
  constructor
  · intro hfs
    simp only [bandpower]
    split_ifs with h
    · exact le_refl 0
    · apply trapzP_nonneg
      · exact List.Pairwise.sublist (List.filter_sublist _)
          (zip_fst_pairwise _ _ (rfftfreq_pairwise _ _ hfs))
      · intro p hpmem
        have hz := (List.mem_filter.mp hpmem).1
        obtain ⟨x, y⟩ := p
        exact welchPSD_mem_nonneg arr fs hfs _ (List.of_mem_zip hz).2
  · intro hban
    simp only [bandpower]
    have hempty : ((rfftfreq arr.length fs).zip (welchPSD arr fs)).filter
        (fun p => decide (low ≤ p.1 ∧ p.1 ≤ high)) = [] := by
      rw [List.filter_eq_nil]
      rintro ⟨x, y⟩ hz
      simpa using hban x (List.of_mem_zip hz).1
    rw [hempty]
    simp

/-- Witness for C6 at arr = [1, 2, 3], fs = 32 and the out-of-range band
[100, 200]: the value is nonnegative and exactly 0. -/
theorem bandpower_nonneg_and_empty_band_witness :
    (0 : ℝ) ≤ 32 ∧ 0 ≤ bandpower [1, 2, 3] 32 100 200 ∧
      bandpower [1, 2, 3] 32 100 200 = 0 :=
  ⟨by norm_num,
    (bandpower_nonneg_and_empty_band [1, 2, 3] 32 100 200).1 (by norm_num),
    (bandpower_nonneg_and_empty_band [1, 2, 3] 32 100 200).2 (by
      intro f hf
      simp only [rfftfreq, List.length_cons, List.length_nil, List.mem_map,
        List.mem_range] at hf
      obtain ⟨k, hk, rfl⟩ := hf
      have hk2 : k = 0 ∨ k = 1 := by omega
      rcases hk2 with rfl | rfl <;> norm_num)⟩

/-- C1 fails on the code, shown at a failing input: handing both paths the
identical window (slices [0,3) of sigC1, BVP slice [0,6)), the training row's
EDA_std entry (pandas sample std, 1.0) differs from the inference row's
EDA_std entry (numpy population std, sqrt(2/3)). -/
theorem train_inference_divergence_eda_std :
    lookupR (trainWindowRow sigC1 32 0 3) "EDA_std" ≠
      lookupR (extract_features_window sigC1) "EDA_std" := by
  have ht : lookupR (trainWindowRow sigC1 32 0 3) "EDA_std" = pdStd (qr [0, 1, 2]) := rfl
  have ha : lookupR (extract_features_window sigC1) "EDA_std" = npStd (qr [0, 1, 2]) := rfl
  have hq : qr [0, 1, 2] = [0, 1, 2] := by norm_num [qr]
  rw [ht, ha, hq, pdStd_example]
  exact (ne_of_lt npStd_example_lt).symm

/-- C3 fails on the code: counting the row identifier and the trailing label,
an emitted training row has 46 entries (the inference vector has 45 without a
label), not 41. -/
theorem schema_not_41_entries :
    ("index" :: (trainWindowRow sigC1 32 0 3).map Prod.fst ++ ["label"]).length = 46 ∧
    ("index" :: (extract_features_window sigC1).map Prod.fst).length = 45 ∧
    (46 : ℕ) ≠ 41 ∧ (45 : ℕ) ≠ 41 :=
  ⟨rfl, rfl, by decide, by decide⟩

/-- C3 amended: every emitted feature row follows the fixed order-significant
schema: a training row is `index`, the 44 features in exactly the order the
spec enumerates, then the label (46 entries in all); the inference vector is
`index` plus the same 44 features (45 entries), and the api reindexing order
equals the spec's enumeration with `index` first. -/
theorem feature_schema_order :
    (∀ (S : Signals) (sr start e : ℕ),
      "index" :: (trainWindowRow S sr start e).map Prod.fst ++ ["label"]
        = specSchema ++ ["label"]) ∧
    (∀ S : Signals, "index" :: (extract_features_window S).map Prod.fst = specSchema) ∧
    (∀ S : Signals, (apiEmittedVector S).map Prod.fst = api_order) ∧
    api_order = specSchema ∧ specSchema.length = 45 := by
  refine ⟨fun S sr start e => ?_, fun S => ?_, fun S => ?_, rfl, rfl⟩
  · rfl
  · rfl
  · rw [apiEmittedVector, List.map_map]
    have hcomp : (Prod.fst ∘ fun k =>
        (k, lookupR (("index", (0 : ℝ)) :: extract_features_window S) k)) = id := rfl
    rw [hcomp, List.map_id]
